import Mathlib

/-!
Verification development for the `restfront/logger` repository.

The repository's core is a daily-rotating file sink (`rotation.go`:
`fileRotator` with `openNew`, `Write`, `Close`, `rotate`, `needRotate`,
and the background `compressFile` worker) plus a thin logging facade
(`logger.go`: `Logger`, `WithFields`).

This file gives a shallow embedding of that code.  Filesystem and clock
effects are made explicit: each call takes an `Env` describing the
current calendar date and which fallible syscalls fail during the call,
and returns the updated sink state, the updated filesystem, an event
trace (sync/close/open/write/compress-dispatch, mirroring the order of
the Go statements) and the `(n, err)` result.
-/

/-- A calendar date, the (year, month, day) triple that `needRotate`
compares field-wise (`rotation.go` line 105).  The Go zero value of
`time.Time` has year 1, month 1, day 1. -/
structure Date where
  year : Nat
  month : Nat
  day : Nat
deriving DecidableEq, Repr

/-- A `*os.File` value: its name (as returned by `Name()`) and whether
the descriptor is still open.  Closing a Go file leaves the pointer
usable but every subsequent `Sync`/`Write`/`Close` on it fails with
`os.ErrClosed`. -/
structure FileHandle where
  name : String
  isOpen : Bool
deriving DecidableEq, Repr

/-- The sink state, `rotation.go` lines 14-20.  The mutex field is not
modelled: every call below is a whole locked critical section, executed
atomically (the lock is held for the full body of `Write` and `Close`). -/
structure fileRotator where
  path : String
  file : Option FileHandle
  date : Date
  compress : Bool
deriving DecidableEq, Repr

/-- The directory the sink writes into: whether it exists, and the files
in it (name together with the appended byte content). -/
structure FS where
  dirExists : Bool
  files : List (String × List Nat)
deriving DecidableEq, Repr

/-- Names of the files present in the directory. -/
def FS.names (fs : FS) : List String := fs.files.map Prod.fst

/-- Effect of `os.OpenFile(name, O_CREATE|O_WRONLY|O_APPEND, 0666)` on
the directory: create an empty file when absent, keep the existing file
(append mode) otherwise. -/
def FS.createFile (fs : FS) (name : String) : FS :=
  if name ∈ fs.names then fs
  else { fs with files := fs.files ++ [(name, [])] }

/-- Effect of a successful `file.Write(p)`: append the bytes to the
named file's content. -/
def FS.appendTo (fs : FS) (name : String) (p : List Nat) : FS :=
  { fs with files := fs.files.map (fun e => if e.1 = name then (e.1, e.2 ++ p) else e) }

/-- The I/O errors the embedding distinguishes: `os.MkdirAll` failure,
`os.OpenFile` failure, and `os.ErrClosed` (any operation on an already
closed file handle). -/
inductive IoError where
  | errMkdir
  | errOpen
  | errClosed
deriving DecidableEq, Repr

/-- Per-call environment: the calendar date `time.Now()` yields during
the call, and which fallible syscalls fail during the call.  (`Sync` and
`Close` on an *open* handle are taken to succeed; on a closed handle they
always fail, which is the Go behavior that matters for the claims.) -/
structure Env where
  now : Date
  mkdirFails : Bool
  openFails : Bool
deriving DecidableEq, Repr

/-- Events emitted by the sink, one per successful syscall, in program
order: `file.Sync()`, `file.Close()`, the `go compressFile(name)`
dispatch, a successful `os.OpenFile`, and a successful `file.Write`. -/
inductive Event where
  | syncEv (name : String)
  | closeEv (name : String)
  | spawnCompress (name : String)
  | openEv (name : String)
  | writeEv (name : String) (p : List Nat)
deriving DecidableEq, Repr

/-- True exactly on a `closeEv` event. -/
def Event.isClose : Event → Bool
  | Event.closeEv _ => true
  | _ => false

/-- Decimal digit character for `n % 10` (zero padding uses `'0'` = 48). -/
def digitChar (n : Nat) : Char := Char.ofNat (48 + n % 10)

/-- Two-digit zero-padded decimal rendering, Go format verbs `01`/`02`
(month and day of `"2006_01_02"`; calendar months and days are < 100). -/
def pad2chars (n : Nat) : List Char := [digitChar (n / 10), digitChar n]

/-- Four-digit zero-padded decimal rendering, Go format verb `2006`
(calendar years are < 10000). -/
def pad4chars (n : Nat) : List Char :=
  [digitChar (n / 1000), digitChar (n / 100), digitChar (n / 10), digitChar n]

/-- `date.Format("2006_01_02")`: underscore-separated zero-padded date. -/
def formatDate (d : Date) : String :=
  String.mk (pad4chars d.year ++ '_' :: (pad2chars d.month ++ '_' :: pad2chars d.day))

/-- `filepath.Join(dir, name)`, modelled as slash concatenation (the
claims never exercise Join's path cleaning). -/
def filepathJoin (dir name : String) : String := dir ++ "/" ++ name

/-- The file name `openNew` derives from the sink state,
`<directory>/<YYYY_MM_DD>.log` (`rotation.go` line 34). -/
def logFileName (dir : String) (d : Date) : String :=
  filepathJoin dir (formatDate d ++ ".log")

/-- Result of `openNew`: updated sink, updated filesystem, emitted
events, and the returned error (`none` = nil). -/
structure OpenResult where
  st : fileRotator
  fs : FS
  trace : List Event
  err : Option IoError
deriving Repr

/-- The `os.Stat`/`os.MkdirAll` prelude of `openNew` (`rotation.go`
lines 27-32): when the directory is absent, create it; `none` models a
`MkdirAll` failure. -/
def mkDirStep (env : Env) (fs : FS) : Option FS :=
  if fs.dirExists then some fs
  else if env.mkdirFails then none
  else some { fs with dirExists := true }

/-- `rotation.go` lines 24-44.  Note that `r.date = onDate` is the very
first statement, before any fallible syscall, so the date is updated
even when the call fails. -/
def fileRotator.openNew (env : Env) (r : fileRotator) (onDate : Date) (fs : FS) : OpenResult :=
  let r1 := { r with date := onDate }
  match mkDirStep env fs with
  | none => ⟨r1, fs, [], some IoError.errMkdir⟩
  | some fs1 =>
    let filename := filepathJoin r1.path (formatDate r1.date ++ ".log")
    -- os.OpenFile(filename, os.O_CREATE|os.O_WRONLY|os.O_APPEND, 0666)
    if env.openFails then ⟨r1, fs1, [], some IoError.errOpen⟩
    else ⟨{ r1 with file := some ⟨filename, true⟩ }, fs1.createFile filename,
          [Event.openEv filename], none⟩

/-- Result of `rotate`. -/
structure RotateResult where
  st : fileRotator
  fs : FS
  trace : List Event
  err : Option IoError
deriving Repr

/-- `rotation.go` lines 84-102: sync and close the current handle, then
(when `compress` is set) dispatch `go compressFile(r.file.Name())`, then
open the file for the current date.  The closed handle stays stored in
`r.file`; only a successful `openNew` replaces it.  (`rotate` is only
reached from `Write` with `r.file != nil`; on `none` the Go code would
dereference a nil pointer, modelled as an error result.) -/
def fileRotator.rotate (env : Env) (r : fileRotator) (fs : FS) : RotateResult :=
  match r.file with
  | none => ⟨r, fs, [], some IoError.errClosed⟩
  | some h =>
    if !h.isOpen then
      -- r.file.Sync() on a closed file fails and is returned
      ⟨r, fs, [], some IoError.errClosed⟩
    else
      let r1 := { r with file := some { h with isOpen := false } }
      let tr := [Event.syncEv h.name, Event.closeEv h.name] ++
        (if r1.compress then [Event.spawnCompress h.name] else [])
      let o := fileRotator.openNew env r1 env.now fs
      ⟨o.st, o.fs, tr ++ o.trace, o.err⟩

/-- `rotation.go` lines 104-106: field-wise comparison of the stored
date with the current date — day, month and year compared independently,
no duration arithmetic. -/
def fileRotator.needRotate (r : fileRotator) (now : Date) : Bool :=
  r.date.day != now.day || r.date.month != now.month || r.date.year != now.year

/-- Result of a `Write` call: updated sink and filesystem, event trace,
the `(n, err)` return pair, and whether the rotation branch was taken. -/
structure WriteResult where
  st : fileRotator
  fs : FS
  trace : List Event
  n : Nat
  err : Option IoError
  rotated : Bool
deriving Repr

/-- The trailing `return r.file.Write(p)` of `Write`: append the bytes
when the stored handle is open, fail with `os.ErrClosed` otherwise.
(Unreachable with `r.file = none` from `Write`.) -/
def fileRotator.doWrite (r : fileRotator) (fs : FS) (tr : List Event) (p : List Nat)
    (rotated : Bool) : WriteResult :=
  match r.file with
  | none => ⟨r, fs, tr, 0, some IoError.errClosed, rotated⟩
  | some h =>
    if h.isOpen then
      ⟨r, fs.appendTo h.name p, tr ++ [Event.writeEv h.name p], p.length, none, rotated⟩
    else ⟨r, fs, tr, 0, some IoError.errClosed, rotated⟩

/-- `rotation.go` lines 46-63.  The whole body runs under `r.mu`; the
per-call `env.now` is the date `time.Now()` yields during the call. -/
def fileRotator.Write (env : Env) (r : fileRotator) (p : List Nat) (fs : FS) : WriteResult :=
  -- if r.file == nil { openNew(time.Now()) }
  let afterOpen : OpenResult :=
    match r.file with
    | none => fileRotator.openNew env r env.now fs
    | some _ => ⟨r, fs, [], none⟩
  match afterOpen.err with
  | some e => ⟨afterOpen.st, afterOpen.fs, afterOpen.trace, 0, some e, false⟩
  | none =>
    if fileRotator.needRotate afterOpen.st env.now then
      let rr := fileRotator.rotate env afterOpen.st afterOpen.fs
      match rr.err with
      | some e => ⟨rr.st, rr.fs, afterOpen.trace ++ rr.trace, 0, some e, true⟩
      | none => fileRotator.doWrite rr.st rr.fs (afterOpen.trace ++ rr.trace) p true
    else fileRotator.doWrite afterOpen.st afterOpen.fs afterOpen.trace p false

/-- `rotation.go` lines 65-82: `Close` returns nil when no handle is
stored; otherwise it syncs then closes.  Note the Go code never resets
`r.file` to nil, so the closed handle stays stored. -/
def fileRotator.Close (r : fileRotator) : fileRotator × Option IoError :=
  match r.file with
  | none => (r, none)
  | some h =>
    if !h.isOpen then
      -- r.file.Sync() on an already closed file fails and is returned
      (r, some IoError.errClosed)
    else (({ r with file := some { h with isOpen := false } } : fileRotator), none)

/-- States the sink can be in: freshly constructed (`InitLogger` builds
`&fileRotator{path, compress}`, so `file` is nil and `date` is the
`time.Time` zero value, year 1 month 1 day 1), or reached from a
reachable state by one `Write` or `Close` call. -/
inductive Reachable : fileRotator → FS → Prop
  | init (path : String) (compress : Bool) (fs0 : FS) :
      Reachable ⟨path, none, ⟨1, 1, 1⟩, compress⟩ fs0
  | write (env : Env) (p : List Nat) {r : fileRotator} {fs : FS} :
      Reachable r fs →
      Reachable (fileRotator.Write env r p fs).st (fileRotator.Write env r p fs).fs
  | close {r : fileRotator} {fs : FS} :
      Reachable r fs → Reachable (fileRotator.Close r).1 fs

/-- The C8 invariant: whenever the stored handle is open, its name is
the one derived from the sink's directory and stored date. -/
def handleInv (r : fileRotator) : Prop :=
  ∀ h : FileHandle, r.file = some h → h.isOpen = true →
    h.name = logFileName r.path r.date

/-- Bounds every real calendar date satisfies; they make the
`YYYY_MM_DD` rendering injective. -/
def validDate (d : Date) : Prop := d.year < 10000 ∧ d.month < 100 ∧ d.day < 100

/-- Which steps of `compressFile` fail in a given invocation. -/
structure CompressEnv where
  openFails : Bool
  createFails : Bool
  statFails : Bool
  headerFails : Bool
  createHeaderFails : Bool
  copyFails : Bool
  finalizeFails : Bool
deriving DecidableEq, Repr

/-- Events of one `compressFile` invocation, in execution order. -/
inductive CEvent where
  | openSrc (name : String)
  | createArchive (name : String)
  | statSrc (name : String)
  | headerFor (name : String)
  | createEntry (name : String)
  | copyBytes (name : String)
  | closeSrc (name : String)
  | removeSrc (name : String)
  | finalizeArchive (name : String) (ok : Bool)
  | closeArchive (name : String)
deriving DecidableEq, Repr

/-- True exactly on a `createEntry` event. -/
def CEvent.isCreateEntry : CEvent → Bool
  | CEvent.createEntry _ => true
  | _ => false

/-- Base name of a path: the component after the last slash.
`zip.FileInfoHeader(info)` sets the entry name from `info.Name()`,
which is the base name of the opened file. -/
def baseName (s : String) : String :=
  match (s.splitOn "/").getLast? with
  | some b => b
  | none => s

/-- `rotation.go` lines 108-146, as the event trace of one invocation.
Every failure does a bare `return` (no value is returned to anyone).
Deferred calls registered after `zip.NewWriter` run in LIFO order at
return: `zipWriter.Close()` (which finalizes the archive by writing the
central directory), then `zipFile.Close()`, then `file.Close()`.  On the
success path the explicit `file.Close()` and `os.Remove(src)` run
*before* those deferred calls. -/
def compressFile (env : CompressEnv) (src : String) : List CEvent :=
  if env.openFails then []
  else if env.createFails then
    -- only defer file.Close() is registered at this point
    [CEvent.openSrc src, CEvent.closeSrc src]
  else
    let arch := src ++ ".zip"
    let defers := [CEvent.finalizeArchive arch (!env.finalizeFails),
                   CEvent.closeArchive arch, CEvent.closeSrc src]
    let pre := [CEvent.openSrc src, CEvent.createArchive arch]
    if env.statFails then pre ++ defers
    else
      let pre := pre ++ [CEvent.statSrc src]
      if env.headerFails then pre ++ defers
      else
        let pre := pre ++ [CEvent.headerFor (baseName src)]
        if env.createHeaderFails then pre ++ defers
        else
          let pre := pre ++ [CEvent.createEntry (baseName src)]
          if env.copyFails then pre ++ defers
          else
            pre ++ [CEvent.copyBytes src, CEvent.closeSrc src, CEvent.removeSrc src]
              ++ defers

/-- The invocation deleted the source file. -/
def srcDeleted (env : CompressEnv) (src : String) : Bool :=
  (compressFile env src).contains (CEvent.removeSrc src)

/-- A `zap.Logger` value: either some underlying core, or a logger
derived by `With(fields)` from a parent (`l.baseLogger.With(zapFields...)`). -/
inductive ZapLogger where
  | core (id : Nat)
  | withAttached (parent : ZapLogger) (fields : List (String × String))
deriving DecidableEq, Repr

/-- `logger.go` lines 11-18.  `rotator` holds the identity of the shared
`*fileRotator` (pointer sharing is what the claim is about), `none` when
the field is nil. -/
structure Logger where
  path : String
  level : String
  structured : Bool
  baseLogger : ZapLogger
  sugarLogger : ZapLogger
  rotator : Option Nat
deriving DecidableEq, Repr

/-- `logger.go` lines 212-228.  The method body only reads the receiver
(no assignment through `l`), so the first component — the receiver as
observable after the call — is the unchanged `l`; the second component
is the returned child logger. -/
def Logger.WithFields (l : Logger) (fields : List (String × String)) : Logger × Logger :=
  let newBaseLogger := ZapLogger.withAttached l.baseLogger fields
  (l,
   { path := l.path
     level := l.level
     structured := l.structured
     baseLogger := newBaseLogger
     sugarLogger := newBaseLogger
     rotator := l.rotator })

/-! ### Helper lemmas -/

/-- Digit characters are distinct for distinct digits. -/
theorem digitChar_injAux : ∀ x : Fin 10, ∀ y : Fin 10,
    Char.ofNat (48 + x.val) = Char.ofNat (48 + y.val) → x = y := by decide

/-- Equal digit characters come from numbers with the same last digit. -/
theorem digitChar_inj {a b : Nat} (h : digitChar a = digitChar b) : a % 10 = b % 10 := by
  have h10a : a % 10 < 10 := Nat.mod_lt _ (by norm_num)
  have h10b : b % 10 < 10 := Nat.mod_lt _ (by norm_num)
  have hfin := digitChar_injAux ⟨a % 10, h10a⟩ ⟨b % 10, h10b⟩ (by simpa [digitChar] using h)
  exact congrArg Fin.val hfin

/-- The `YYYY_MM_DD` rendering is injective on calendar dates. -/
theorem formatDate_inj {d1 d2 : Date}
    (hy1 : d1.year < 10000) (hy2 : d2.year < 10000)
    (hm1 : d1.month < 100) (hm2 : d2.month < 100)
    (hd1 : d1.day < 100) (hd2 : d2.day < 100)
    (h : formatDate d1 = formatDate d2) : d1 = d2 := by
  have hl : pad4chars d1.year ++ '_' :: (pad2chars d1.month ++ '_' :: pad2chars d1.day) =
      pad4chars d2.year ++ '_' :: (pad2chars d2.month ++ '_' :: pad2chars d2.day) := by
    have hd := congrArg String.data h
    simpa [formatDate] using hd
  simp only [pad4chars, pad2chars, List.cons_append, List.nil_append, List.cons.injEq,
    and_true] at hl
  obtain ⟨e1, e2, e3, e4, -, e5, e6, -, e7, e8⟩ := hl
  have g1 := digitChar_inj e1
  have g2 := digitChar_inj e2
  have g3 := digitChar_inj e3
  have g4 := digitChar_inj e4
  have g5 := digitChar_inj e5
  have g6 := digitChar_inj e6
  have g7 := digitChar_inj e7
  have g8 := digitChar_inj e8
  obtain ⟨y1, m1, a1⟩ := d1
  obtain ⟨y2, m2, a2⟩ := d2
  simp only at g1 g2 g3 g4 g5 g6 g7 g8 hy1 hy2 hm1 hm2 hd1 hd2
  have : y1 = y2 := by omega
  have : m1 = m2 := by omega
  have : a1 = a2 := by omega
  simp_all

/-- Log file names of distinct calendar dates in the same directory are
distinct. -/
theorem logFileName_inj {dir : String} {d1 d2 : Date}
    (hy1 : d1.year < 10000) (hy2 : d2.year < 10000)
    (hm1 : d1.month < 100) (hm2 : d2.month < 100)
    (hd1 : d1.day < 100) (hd2 : d2.day < 100)
    (h : logFileName dir d1 = logFileName dir d2) : d1 = d2 := by
  apply formatDate_inj hy1 hy2 hm1 hm2 hd1 hd2
  have hdata : (formatDate d1).data ++ ".log".data = (formatDate d2).data ++ ".log".data := by
    have := congrArg String.data h
    simpa [logFileName, filepathJoin, String.data_append] using this
  have := List.append_cancel_right hdata
  exact String.ext this

/-- Appending bytes to a file changes no file names. -/
theorem names_appendTo (fs : FS) (nm : String) (p : List Nat) :
    (fs.appendTo nm p).names = fs.names := by
  simp only [FS.appendTo, FS.names, List.map_map]
  congr 1
  funext e
  by_cases he : e.1 = nm <;> simp [he]

/-! ### Branch equations for `openNew`, `rotate` and `Write` -/

/-- The mkdir step never touches the directory's files. -/
theorem mkDirStep_files (env : Env) (fs fs1 : FS) (h : mkDirStep env fs = some fs1) :
    fs1.files = fs.files := by
  unfold mkDirStep at h
  split_ifs at h <;> simp_all
  exact (congrArg FS.files h).symm

/-- Branch of `openNew` where `MkdirAll` fails. -/
theorem openNew_mkdirFail (env : Env) (r : fileRotator) (d : Date) (fs : FS)
    (h : mkDirStep env fs = none) :
    fileRotator.openNew env r d fs = ⟨{ r with date := d }, fs, [], some IoError.errMkdir⟩ := by
  simp [fileRotator.openNew, h]

/-- Branch of `openNew` where `OpenFile` fails: the date is already
updated, the handle is not. -/
theorem openNew_openFail (env : Env) (r : fileRotator) (d : Date) (fs fs1 : FS)
    (h : mkDirStep env fs = some fs1) (hop : env.openFails = true) :
    fileRotator.openNew env r d fs = ⟨{ r with date := d }, fs1, [], some IoError.errOpen⟩ := by
  simp [fileRotator.openNew, h, hop]

/-- Successful branch of `openNew`. -/
theorem openNew_ok (env : Env) (r : fileRotator) (d : Date) (fs fs1 : FS)
    (h : mkDirStep env fs = some fs1) (hop : env.openFails = false) :
    fileRotator.openNew env r d fs =
      ⟨{ r with date := d, file := some ⟨logFileName r.path d, true⟩ },
        fs1.createFile (logFileName r.path d), [Event.openEv (logFileName r.path d)], none⟩ := by
  simp [fileRotator.openNew, h, hop, logFileName, filepathJoin]

/-- `rotate` with no stored handle (unreachable from `Write`). -/
theorem rotate_none (env : Env) (r : fileRotator) (fs : FS) (h : r.file = none) :
    fileRotator.rotate env r fs = ⟨r, fs, [], some IoError.errClosed⟩ := by
  simp [fileRotator.rotate, h]

/-- `rotate` on an already closed handle fails at the `Sync` and leaves
everything unchanged. -/
theorem rotate_closed (env : Env) (r : fileRotator) (fs : FS) (h : FileHandle)
    (hf : r.file = some h) (ho : h.isOpen = false) :
    fileRotator.rotate env r fs = ⟨r, fs, [], some IoError.errClosed⟩ := by
  simp [fileRotator.rotate, hf, ho]

/-- `rotate` on an open handle: close it, then run `openNew`. -/
theorem rotate_open (env : Env) (r : fileRotator) (fs : FS) (h : FileHandle)
    (hf : r.file = some h) (ho : h.isOpen = true) :
    fileRotator.rotate env r fs =
      (let o := fileRotator.openNew env { r with file := some { h with isOpen := false } }
        env.now fs
      ⟨o.st, o.fs,
        ([Event.syncEv h.name, Event.closeEv h.name] ++
          (if r.compress then [Event.spawnCompress h.name] else [])) ++ o.trace, o.err⟩) := by
  simp [fileRotator.rotate, hf, ho]

/-- `Write` with a stored handle skips the lazy open. -/
theorem write_fileSome (env : Env) (r : fileRotator) (p : List Nat) (fs : FS) (h : FileHandle)
    (hf : r.file = some h) :
    fileRotator.Write env r p fs =
      (if fileRotator.needRotate r env.now then
        let rr := fileRotator.rotate env r fs
        match rr.err with
        | some e => ⟨rr.st, rr.fs, rr.trace, 0, some e, true⟩
        | none => fileRotator.doWrite rr.st rr.fs rr.trace p true
      else fileRotator.doWrite r fs [] p false) := by
  simp only [fileRotator.Write, hf]
  split_ifs <;> simp

/-- `Write` with no stored handle runs the lazy open first. -/
theorem write_fileNone (env : Env) (r : fileRotator) (p : List Nat) (fs : FS)
    (hf : r.file = none) :
    fileRotator.Write env r p fs =
      (let o := fileRotator.openNew env r env.now fs
      match o.err with
      | some e => ⟨o.st, o.fs, o.trace, 0, some e, false⟩
      | none =>
        if fileRotator.needRotate o.st env.now then
          let rr := fileRotator.rotate env o.st o.fs
          match rr.err with
          | some e => ⟨rr.st, rr.fs, o.trace ++ rr.trace, 0, some e, true⟩
          | none => fileRotator.doWrite rr.st rr.fs (o.trace ++ rr.trace) p true
        else fileRotator.doWrite o.st o.fs o.trace p false) := by
  simp only [fileRotator.Write, hf]

/-- The final write step reports the rotation flag it is given. -/
theorem doWrite_rotated (r : fileRotator) (fs : FS) (tr : List Event) (p : List Nat) (b : Bool) :
    (fileRotator.doWrite r fs tr p b).rotated = b := by
  unfold fileRotator.doWrite
  cases r.file with
  | none => rfl
  | some h => by_cases hh : h.isOpen <;> simp [hh]

/-- With a stored handle, the rotation branch is taken exactly when
`needRotate` says so. -/
theorem write_rotated_of_file_some (env : Env) (r : fileRotator) (p : List Nat) (fs : FS)
    (h : FileHandle) (hf : r.file = some h) :
    (fileRotator.Write env r p fs).rotated = fileRotator.needRotate r env.now := by
  simp only [fileRotator.Write, hf]
  cases hnr : fileRotator.needRotate r env.now
  · simp [hnr, doWrite_rotated]
  · simp only [hnr, if_true]
    cases he : (fileRotator.rotate env r fs).err <;> simp [doWrite_rotated]

/-- The `(n, err)` result, the filesystem, the stored handle and the
stored date of a `Write` call do not depend on the `compress` flag: the
dispatched compression task is never waited on and never observed by the
write path. -/
theorem write_compress_indep (env : Env) (pa : String) (fi : Option FileHandle) (da : Date)
    (co b : Bool) (p : List Nat) (fs : FS) :
    (fileRotator.Write env ⟨pa, fi, da, b⟩ p fs).n =
      (fileRotator.Write env ⟨pa, fi, da, co⟩ p fs).n ∧
    (fileRotator.Write env ⟨pa, fi, da, b⟩ p fs).err =
      (fileRotator.Write env ⟨pa, fi, da, co⟩ p fs).err ∧
    (fileRotator.Write env ⟨pa, fi, da, b⟩ p fs).fs =
      (fileRotator.Write env ⟨pa, fi, da, co⟩ p fs).fs ∧
    (fileRotator.Write env ⟨pa, fi, da, b⟩ p fs).st.file =
      (fileRotator.Write env ⟨pa, fi, da, co⟩ p fs).st.file ∧
    (fileRotator.Write env ⟨pa, fi, da, b⟩ p fs).st.date =
      (fileRotator.Write env ⟨pa, fi, da, co⟩ p fs).st.date := by
  cases fi with
  | none =>
    rw [write_fileNone env ⟨pa, none, da, b⟩ p fs rfl,
        write_fileNone env ⟨pa, none, da, co⟩ p fs rfl]
    cases hmk : mkDirStep env fs with
    | none =>
      rw [openNew_mkdirFail env ⟨pa, none, da, b⟩ env.now fs hmk,
          openNew_mkdirFail env ⟨pa, none, da, co⟩ env.now fs hmk]
      simp
    | some fs1 =>
      cases hop : env.openFails with
      | true =>
        rw [openNew_openFail env ⟨pa, none, da, b⟩ env.now fs fs1 hmk hop,
            openNew_openFail env ⟨pa, none, da, co⟩ env.now fs fs1 hmk hop]
        simp
      | false =>
        rw [openNew_ok env ⟨pa, none, da, b⟩ env.now fs fs1 hmk hop,
            openNew_ok env ⟨pa, none, da, co⟩ env.now fs fs1 hmk hop]
        simp [fileRotator.needRotate, fileRotator.doWrite]
  | some h =>
    rw [write_fileSome env ⟨pa, some h, da, b⟩ p fs h rfl,
        write_fileSome env ⟨pa, some h, da, co⟩ p fs h rfl]
    have hnreq : fileRotator.needRotate ⟨pa, some h, da, b⟩ env.now =
        fileRotator.needRotate ⟨pa, some h, da, co⟩ env.now := rfl
    cases hnr : fileRotator.needRotate ⟨pa, some h, da, co⟩ env.now with
    | false =>
      rw [hnreq, hnr]
      by_cases hh : h.isOpen = true <;> simp [fileRotator.doWrite, hh]
    | true =>
      rw [hnreq, hnr]
      simp only [if_true]
      cases hho : h.isOpen with
      | false =>
        rw [rotate_closed env ⟨pa, some h, da, b⟩ fs h rfl hho,
            rotate_closed env ⟨pa, some h, da, co⟩ fs h rfl hho]
        simp
      | true =>
        rw [rotate_open env ⟨pa, some h, da, b⟩ fs h rfl hho,
            rotate_open env ⟨pa, some h, da, co⟩ fs h rfl hho]
        cases hmk : mkDirStep env fs with
        | none =>
          rw [openNew_mkdirFail env ⟨pa, some { h with isOpen := false }, da, b⟩ env.now fs hmk,
              openNew_mkdirFail env ⟨pa, some { h with isOpen := false }, da, co⟩ env.now fs hmk]
          simp
        | some fs1 =>
          cases hop : env.openFails with
          | true =>
            rw [openNew_openFail env ⟨pa, some { h with isOpen := false }, da, b⟩ env.now fs fs1
                  hmk hop,
                openNew_openFail env ⟨pa, some { h with isOpen := false }, da, co⟩ env.now fs fs1
                  hmk hop]
            simp
          | false =>
            rw [openNew_ok env ⟨pa, some { h with isOpen := false }, da, b⟩ env.now fs fs1
                  hmk hop,
                openNew_ok env ⟨pa, some { h with isOpen := false }, da, co⟩ env.now fs fs1
                  hmk hop]
            simp [fileRotator.doWrite]

/-- Every `Write` call closes at most one file: at most one rotation per
call, however many days have elapsed. -/
theorem countClose_write (env : Env) (r : fileRotator) (p : List Nat) (fs : FS) :
    ((fileRotator.Write env r p fs).trace.countP Event.isClose) ≤ 1 := by
  obtain ⟨pa, fi, da, co⟩ := r
  cases fi with
  | none =>
    rw [write_fileNone env ⟨pa, none, da, co⟩ p fs rfl]
    cases hmk : mkDirStep env fs with
    | none =>
      rw [openNew_mkdirFail env ⟨pa, none, da, co⟩ env.now fs hmk]
      simp
    | some fs1 =>
      cases hop : env.openFails with
      | true =>
        rw [openNew_openFail env ⟨pa, none, da, co⟩ env.now fs fs1 hmk hop]
        simp
      | false =>
        rw [openNew_ok env ⟨pa, none, da, co⟩ env.now fs fs1 hmk hop]
        simp [fileRotator.needRotate, fileRotator.doWrite, Event.isClose, List.countP_append,
          List.countP_cons]
  | some h =>
    rw [write_fileSome env ⟨pa, some h, da, co⟩ p fs h rfl]
    cases hnr : fileRotator.needRotate ⟨pa, some h, da, co⟩ env.now with
    | false =>
      rw [if_neg (by simp)]
      by_cases hh : h.isOpen = true <;>
        simp [fileRotator.doWrite, hh, Event.isClose, List.countP_append, List.countP_cons]
    | true =>
      rw [if_pos rfl]
      cases hho : h.isOpen with
      | false =>
        rw [rotate_closed env ⟨pa, some h, da, co⟩ fs h rfl hho]
        simp
      | true =>
        rw [rotate_open env ⟨pa, some h, da, co⟩ fs h rfl hho]
        cases hmk : mkDirStep env fs with
        | none =>
          rw [openNew_mkdirFail env ⟨pa, some { h with isOpen := false }, da, co⟩ env.now fs hmk]
          cases co <;>
            simp [Event.isClose, List.countP_append, List.countP_cons]
        | some fs1 =>
          cases hop : env.openFails with
          | true =>
            rw [openNew_openFail env ⟨pa, some { h with isOpen := false }, da, co⟩ env.now fs fs1
                  hmk hop]
            cases co <;>
              simp [Event.isClose, List.countP_append, List.countP_cons]
          | false =>
            rw [openNew_ok env ⟨pa, some { h with isOpen := false }, da, co⟩ env.now fs fs1
                  hmk hop]
            cases co <;>
              simp [fileRotator.doWrite, Event.isClose, List.countP_append, List.countP_cons]

/-- A sink holding an open file for a stale calendar date rotates
exactly once on the next write: it yields two files (the stale one,
untouched, and the current date's file holding the new bytes), and a
further write on the same day rotates nothing and appends to the second
file. -/
theorem write_on_stale_date_two_files
    (path : String) (d now : Date) (compress : Bool) (content p q : List Nat)
    (hvd : validDate d) (hvn : validDate now)
    (hnr : fileRotator.needRotate ⟨path, some ⟨logFileName path d, true⟩, d, compress⟩ now
      = true) :
    let env : Env := ⟨now, false, false⟩
    let r : fileRotator := ⟨path, some ⟨logFileName path d, true⟩, d, compress⟩
    let fs : FS := ⟨true, [(logFileName path d, content)]⟩
    let o1 := fileRotator.Write env r p fs
    let o2 := fileRotator.Write env o1.st q o1.fs
    o1.err = none ∧ o1.rotated = true ∧ o1.st.date = now ∧
    o1.fs.files = [(logFileName path d, content), (logFileName path now, p)] ∧
    o2.err = none ∧ o2.rotated = false ∧
    o2.fs.files = [(logFileName path d, content), (logFileName path now, p ++ q)] := by
  intro env r fs o1 o2
  have hdneq : d ≠ now := by
    intro hEq
    subst hEq
    simp [fileRotator.needRotate] at hnr
  have hne : logFileName path now ≠ logFileName path d := by
    intro heq
    exact hdneq (logFileName_inj hvn.1 hvd.1 hvn.2.1 hvd.2.1 hvn.2.2 hvd.2.2 heq).symm
  have hne2 : logFileName path d ≠ logFileName path now := hne.symm
  have hmk : mkDirStep env fs = some fs := by simp [mkDirStep, fs]
  have e1 : fileRotator.Write env r p fs =
      ⟨⟨path, some ⟨logFileName path now, true⟩, now, compress⟩,
        ⟨true, [(logFileName path d, content), (logFileName path now, p)]⟩,
        Event.syncEv (logFileName path d) :: Event.closeEv (logFileName path d) ::
          ((if compress then [Event.spawnCompress (logFileName path d)] else []) ++
            [Event.openEv (logFileName path now),
             Event.writeEv (logFileName path now) p]),
        p.length, none, true⟩ := by
    rw [write_fileSome env r p fs ⟨logFileName path d, true⟩ rfl, if_pos hnr,
        rotate_open env r fs ⟨logFileName path d, true⟩ rfl rfl]
    rw [openNew_ok env ⟨path, some ⟨logFileName path d, false⟩, d, compress⟩ env.now fs fs
          hmk rfl]
    simp [fileRotator.doWrite, FS.createFile, FS.names, FS.appendTo, hne, hne2]
  have e2 : fileRotator.Write env ⟨path, some ⟨logFileName path now, true⟩, now, compress⟩ q
      ⟨true, [(logFileName path d, content), (logFileName path now, p)]⟩ =
      ⟨⟨path, some ⟨logFileName path now, true⟩, now, compress⟩,
        ⟨true, [(logFileName path d, content), (logFileName path now, p ++ q)]⟩,
        [Event.writeEv (logFileName path now) q],
        q.length, none, false⟩ := by
    rw [write_fileSome env ⟨path, some ⟨logFileName path now, true⟩, now, compress⟩ q
          ⟨true, [(logFileName path d, content), (logFileName path now, p)]⟩
          ⟨logFileName path now, true⟩ rfl,
        if_neg (by simp [fileRotator.needRotate])]
    simp [fileRotator.doWrite, FS.appendTo, hne, hne2]
  simp only [o2, o1, e1, e2]
  simp

/-- The exact event order of a successful rotation inside `Write`: sync
and close the old file, dispatch compression (iff the flag is set, for
the old file's path), open the new date's file, then write the bytes. -/
theorem write_rotation_trace
    (env : Env) (r : fileRotator) (p : List Nat) (fs : FS) (h : FileHandle)
    (hf : r.file = some h) (ho : h.isOpen = true)
    (hnr : fileRotator.needRotate r env.now = true)
    (hdir : fs.dirExists = true) (hof : env.openFails = false) :
    (fileRotator.Write env r p fs).trace =
      [Event.syncEv h.name, Event.closeEv h.name] ++
      (if r.compress then [Event.spawnCompress h.name] else []) ++
      [Event.openEv (logFileName r.path env.now),
       Event.writeEv (logFileName r.path env.now) p] := by
  have hmk : mkDirStep env fs = some fs := by simp [mkDirStep, hdir]
  rw [write_fileSome env r p fs h hf, if_pos hnr,
      rotate_open env r fs h hf ho]
  rw [openNew_ok env { r with file := some { h with isOpen := false } } env.now fs fs hmk hof]
  simp [fileRotator.doWrite, FS.createFile]

/-- `openNew` establishes the filename invariant provided any handle it
may overwrite is already closed (as is the case at both of its call
sites). -/
theorem openNew_handleInv (env : Env) (r : fileRotator) (d : Date) (fs : FS)
    (hw : ∀ h : FileHandle, r.file = some h → h.isOpen = false) :
    handleInv (fileRotator.openNew env r d fs).st := by
  cases hmk : mkDirStep env fs with
  | none =>
    rw [openNew_mkdirFail env r d fs hmk]
    intro h hh ho
    simp at hh
    exact absurd ho (by simp [hw h hh])
  | some fs1 =>
    cases hop : env.openFails with
    | true =>
      rw [openNew_openFail env r d fs fs1 hmk hop]
      intro h hh ho
      simp at hh
      exact absurd ho (by simp [hw h hh])
    | false =>
      rw [openNew_ok env r d fs fs1 hmk hop]
      intro h hh ho
      simp at hh
      subst hh
      simp

/-- `Write` preserves the filename invariant. -/
theorem write_preserves_handleInv (env : Env) (r : fileRotator) (p : List Nat) (fs : FS)
    (hr : handleInv r) : handleInv (fileRotator.Write env r p fs).st := by
  obtain ⟨pa, fi, da, co⟩ := r
  cases fi with
  | none =>
    rw [write_fileNone env ⟨pa, none, da, co⟩ p fs rfl]
    cases hmk : mkDirStep env fs with
    | none =>
      rw [openNew_mkdirFail env ⟨pa, none, da, co⟩ env.now fs hmk]
      intro h hh ho
      simp at hh
    | some fs1 =>
      cases hop : env.openFails with
      | true =>
        rw [openNew_openFail env ⟨pa, none, da, co⟩ env.now fs fs1 hmk hop]
        intro h hh ho
        simp at hh
      | false =>
        rw [openNew_ok env ⟨pa, none, da, co⟩ env.now fs fs1 hmk hop]
        -- the fresh state carries date `env.now`, so no rotation follows
        simp only [fileRotator.needRotate, fileRotator.doWrite]
        intro h hh ho
        simp at hh
        subst hh
        simp
  | some h0 =>
    rw [write_fileSome env ⟨pa, some h0, da, co⟩ p fs h0 rfl]
    split_ifs with hnr
    · cases hho : h0.isOpen with
      | false =>
        rw [rotate_closed env ⟨pa, some h0, da, co⟩ fs h0 rfl hho]
        simpa using hr
      | true =>
        rw [rotate_open env ⟨pa, some h0, da, co⟩ fs h0 rfl hho]
        cases hmk : mkDirStep env fs with
        | none =>
          rw [openNew_mkdirFail env ⟨pa, some { h0 with isOpen := false }, da, co⟩
                env.now fs hmk]
          intro h hh ho
          simp at hh
          subst hh
          simp at ho
        | some fs1 =>
          cases hop : env.openFails with
          | true =>
            rw [openNew_openFail env ⟨pa, some { h0 with isOpen := false }, da, co⟩
                  env.now fs fs1 hmk hop]
            intro h hh ho
            simp at hh
            subst hh
            simp at ho
          | false =>
            rw [openNew_ok env ⟨pa, some { h0 with isOpen := false }, da, co⟩
                  env.now fs fs1 hmk hop]
            simp only [fileRotator.doWrite]
            intro h hh ho
            simp at hh
            subst hh
            simp
    · simp only [fileRotator.doWrite]
      cases hho : h0.isOpen <;> simp [hho] <;> simpa using hr

/-- `Close` preserves the filename invariant. -/
theorem close_preserves_handleInv (r : fileRotator) (hr : handleInv r) :
    handleInv (fileRotator.Close r).1 := by
  obtain ⟨pa, fi, da, co⟩ := r
  cases fi with
  | none => simpa [fileRotator.Close] using hr
  | some h0 =>
    cases hho : h0.isOpen with
    | false =>
      simp only [fileRotator.Close, hho]
      simpa using hr
    | true =>
      intro h hh ho
      simp [fileRotator.Close, hho] at hh
      exact absurd ho (by simp [← hh])

/-- Every reachable sink state satisfies the filename invariant. -/
theorem reachable_handleInv (r : fileRotator) (fs : FS) (hr : Reachable r fs) : handleInv r := by
  induction hr with
  | init path compress fs0 => intro h hh ho; simp at hh
  | write env p _ ih => exact write_preserves_handleInv env _ p _ ih
  | close _ ih => exact close_preserves_handleInv _ ih

/-- A fully successful compression run creates the archive at
`src + ".zip"` and creates exactly one entry, named by the source's base
name. -/
theorem compress_success_naming (src : String) :
    CEvent.createArchive (src ++ ".zip") ∈
      compressFile ⟨false, false, false, false, false, false, false⟩ src ∧
    (compressFile ⟨false, false, false, false, false, false, false⟩ src).filter
      CEvent.isCreateEntry = [CEvent.createEntry (baseName src)] := by
  constructor
  · simp [compressFile]
  · simp [compressFile, CEvent.isCreateEntry, List.filter]

/-! ### Claim theorems -/

/-- Claim C1: for every `Write` call on a sink with an open file,
rotation is performed if and only if the stored date's day, month or
year differs from the current date, decided by independent field-wise
comparison; if all three fields are equal no rotation occurs. -/
theorem claimC1_rotation_iff_date_fields_differ
    (env : Env) (r : fileRotator) (p : List Nat) (fs : FS) (h : FileHandle)
    (hf : r.file = some h) (ho : h.isOpen = true) :
    (fileRotator.Write env r p fs).rotated = fileRotator.needRotate r env.now ∧
    ((fileRotator.Write env r p fs).rotated = true ↔
      (r.date.day ≠ env.now.day ∨ r.date.month ≠ env.now.month ∨
       r.date.year ≠ env.now.year)) := by
  refine ⟨write_rotated_of_file_some env r p fs h hf, ?_⟩
  rw [write_rotated_of_file_some env r p fs h hf]
  simp [fileRotator.needRotate, or_assoc]

/-- Witness for C1: a sink dated 2024-05-16 written on 2024-05-17
rotates; the equivalence holds at this concrete input. -/
theorem claimC1_witness :
    (fileRotator.Write ⟨⟨2024, 5, 17⟩, false, false⟩
      ⟨"logs", some ⟨"logs/2024_05_16.log", true⟩, ⟨2024, 5, 16⟩, false⟩ [7]
      ⟨true, [("logs/2024_05_16.log", [])]⟩).rotated =
      fileRotator.needRotate
        ⟨"logs", some ⟨"logs/2024_05_16.log", true⟩, ⟨2024, 5, 16⟩, false⟩ ⟨2024, 5, 17⟩ ∧
    ((fileRotator.Write ⟨⟨2024, 5, 17⟩, false, false⟩
      ⟨"logs", some ⟨"logs/2024_05_16.log", true⟩, ⟨2024, 5, 16⟩, false⟩ [7]
      ⟨true, [("logs/2024_05_16.log", [])]⟩).rotated = true ↔
      ((⟨2024, 5, 16⟩ : Date).day ≠ (⟨2024, 5, 17⟩ : Date).day ∨
       (⟨2024, 5, 16⟩ : Date).month ≠ (⟨2024, 5, 17⟩ : Date).month ∨
       (⟨2024, 5, 16⟩ : Date).year ≠ (⟨2024, 5, 17⟩ : Date).year)) := by
  exact claimC1_rotation_iff_date_fields_differ ⟨⟨2024, 5, 17⟩, false, false⟩
    ⟨"logs", some ⟨"logs/2024_05_16.log", true⟩, ⟨2024, 5, 16⟩, false⟩ [7]
    ⟨true, [("logs/2024_05_16.log", [])]⟩ ⟨"logs/2024_05_16.log", true⟩ rfl rfl

/-- Claim C2: every `Write` call performs at most one rotation (at most
one file close) regardless of the days elapsed; a sink open on a stale
date produces exactly two files on the next write — the stale file and
the current date's file with the new bytes — and a repeat write on the
same day rotates nothing. -/
theorem claimC2_one_rotation_two_files :
    (∀ (env : Env) (r : fileRotator) (p : List Nat) (fs : FS),
      ((fileRotator.Write env r p fs).trace.countP Event.isClose) ≤ 1) ∧
    (∀ (path : String) (d now : Date) (compress : Bool) (content p q : List Nat),
      validDate d → validDate now →
      fileRotator.needRotate ⟨path, some ⟨logFileName path d, true⟩, d, compress⟩ now = true →
      let env : Env := ⟨now, false, false⟩
      let r : fileRotator := ⟨path, some ⟨logFileName path d, true⟩, d, compress⟩
      let fs : FS := ⟨true, [(logFileName path d, content)]⟩
      let o1 := fileRotator.Write env r p fs
      let o2 := fileRotator.Write env o1.st q o1.fs
      o1.err = none ∧ o1.rotated = true ∧ o1.st.date = now ∧
      o1.fs.files = [(logFileName path d, content), (logFileName path now, p)] ∧
      o2.err = none ∧ o2.rotated = false ∧
      o2.fs.files = [(logFileName path d, content), (logFileName path now, p ++ q)]) := by
  exact ⟨countClose_write,
    fun path d now compress content p q hvd hvn hnr =>
      write_on_stale_date_two_files path d now compress content p q hvd hvn hnr⟩

/-- Witness for C2: a sink dated 2024-05-16 written on 2024-05-17 yields
exactly the two expected files, and a second write appends. -/
theorem claimC2_witness :
    let path := "logs"
    let d : Date := ⟨2024, 5, 16⟩
    let now : Date := ⟨2024, 5, 17⟩
    let env : Env := ⟨now, false, false⟩
    let r : fileRotator := ⟨path, some ⟨logFileName path d, true⟩, d, false⟩
    let fs : FS := ⟨true, [(logFileName path d, [9])]⟩
    let o1 := fileRotator.Write env r [1] fs
    let o2 := fileRotator.Write env o1.st [2] o1.fs
    o1.err = none ∧ o1.rotated = true ∧ o1.st.date = now ∧
    o1.fs.files = [(logFileName path d, [9]), (logFileName path now, [1])] ∧
    o2.err = none ∧ o2.rotated = false ∧
    o2.fs.files = [(logFileName path d, [9]), (logFileName path now, [1] ++ [2])] := by
  exact claimC2_one_rotation_two_files.2 "logs" ⟨2024, 5, 16⟩ ⟨2024, 5, 17⟩ false [9] [1] [2]
    ⟨by decide, by decide, by decide⟩ ⟨by decide, by decide, by decide⟩ (by decide)

/-- Claim C3 (code bug): `Close` on a sink with no handle does return
nil, but after a successful `Close` the code keeps `r.file` pointing at
the closed file, so a second `Close` fails at `Sync` with a closed-file
error and a subsequent `Write` writes to the closed handle and fails
instead of re-opening.  This contradicts the claim's idempotence and
re-openability. -/
theorem claimC3_close_keeps_stale_handle :
    let env : Env := ⟨⟨2024, 5, 17⟩, false, false⟩
    let o := fileRotator.Write env ⟨"logs", none, ⟨1, 1, 1⟩, false⟩ [7] ⟨true, []⟩
    let c1 := fileRotator.Close o.st
    (fileRotator.Close ⟨"logs", none, ⟨1, 1, 1⟩, false⟩).2 = none ∧
    o.err = none ∧
    c1.2 = none ∧
    c1.1.file = some ⟨"logs/2024_05_17.log", false⟩ ∧
    (fileRotator.Close c1.1).2 = some IoError.errClosed ∧
    (fileRotator.Write env c1.1 [8] o.fs).err = some IoError.errClosed ∧
    (fileRotator.Write env c1.1 [8] o.fs).n = 0 ∧
    (fileRotator.Write env c1.1 [8] o.fs).trace = [] := by
  decide

/-- Counterexample to claim C4: after a rotation whose `openNew` fails,
the very next `Write` — with no injected failures, on the same day —
does not re-open anything: it emits no events, changes nothing, and
fails on the stale closed handle.  The sink does not self-heal. -/
theorem claimC4_counterexample :
    let envFail : Env := ⟨⟨2024, 5, 17⟩, false, true⟩
    let envOk : Env := ⟨⟨2024, 5, 17⟩, false, false⟩
    let r : fileRotator := ⟨"logs", some ⟨"logs/2024_05_16.log", true⟩, ⟨2024, 5, 16⟩, false⟩
    let o1 := fileRotator.Write envFail r [7] ⟨true, [("logs/2024_05_16.log", [])]⟩
    let o2 := fileRotator.Write envOk o1.st [7] o1.fs
    o1.err = some IoError.errOpen ∧ o1.n = 0 ∧
    o1.st.file = some ⟨"logs/2024_05_16.log", false⟩ ∧
    o2.err = some IoError.errClosed ∧ o2.n = 0 ∧ o2.trace = [] ∧
    o2.st = o1.st ∧ o2.fs = o1.fs := by
  decide

/-- Claim C4 as amended: when rotation closes the old file and the
re-open fails, that `Write` returns the error with zero bytes written —
but the sink keeps the stale closed handle (and the already-updated
date), so every subsequent `Write`, whatever its environment, fails with
a closed-file error, emits no events, and changes nothing: there is no
re-open attempt and no self-healing. -/
theorem claimC4_failed_rotation_no_self_heal
    (path : String) (d : Date) (compress : Bool) (p : List Nat) (fs : FS)
    (env1 : Env) (h : FileHandle)
    (ho : h.isOpen = true)
    (hnr : fileRotator.needRotate ⟨path, some h, d, compress⟩ env1.now = true)
    (hdir : fs.dirExists = true)
    (hof : env1.openFails = true) :
    let o1 := fileRotator.Write env1 ⟨path, some h, d, compress⟩ p fs
    o1.err = some IoError.errOpen ∧ o1.n = 0 ∧
    o1.st.file = some ⟨h.name, false⟩ ∧ o1.st.date = env1.now ∧ o1.fs = fs ∧
    ∀ env2 : Env, ∀ q : List Nat,
      (fileRotator.Write env2 o1.st q o1.fs).err = some IoError.errClosed ∧
      (fileRotator.Write env2 o1.st q o1.fs).n = 0 ∧
      (fileRotator.Write env2 o1.st q o1.fs).trace = [] ∧
      (fileRotator.Write env2 o1.st q o1.fs).st = o1.st ∧
      (fileRotator.Write env2 o1.st q o1.fs).fs = o1.fs := by
  have hmk : mkDirStep env1 fs = some fs := by simp [mkDirStep, hdir]
  have hstep : fileRotator.Write env1 ⟨path, some h, d, compress⟩ p fs =
      ⟨⟨path, some ⟨h.name, false⟩, env1.now, compress⟩, fs,
        [Event.syncEv h.name, Event.closeEv h.name] ++
          (if compress then [Event.spawnCompress h.name] else []),
        0, some IoError.errOpen, true⟩ := by
    rw [write_fileSome env1 ⟨path, some h, d, compress⟩ p fs h rfl, if_pos hnr,
        rotate_open env1 ⟨path, some h, d, compress⟩ fs h rfl ho]
    rw [openNew_openFail env1 ⟨path, some { h with isOpen := false }, d, compress⟩
          env1.now fs fs hmk hof]
    simp
  intro o1
  simp only [o1, hstep]
  refine ⟨trivial, trivial, trivial, trivial, trivial, ?_⟩
  intro env2 q
  cases hnr2 : fileRotator.needRotate ⟨path, some ⟨h.name, false⟩, env1.now, compress⟩
      env2.now <;>
    simp [fileRotator.Write, fileRotator.rotate, fileRotator.doWrite, hnr2]

/-- Witness for C4 as amended, at the concrete failed-rotation state. -/
theorem claimC4_witness :
    let o1 := fileRotator.Write ⟨⟨2024, 5, 17⟩, false, true⟩
      ⟨"logs", some ⟨"logs/2024_05_16.log", true⟩, ⟨2024, 5, 16⟩, false⟩ [7]
      ⟨true, [("logs/2024_05_16.log", [])]⟩
    o1.err = some IoError.errOpen ∧ o1.n = 0 ∧
    o1.st.file = some ⟨"logs/2024_05_16.log", false⟩ ∧
    o1.st.date = ⟨2024, 5, 17⟩ ∧ o1.fs = ⟨true, [("logs/2024_05_16.log", [])]⟩ ∧
    ∀ env2 : Env, ∀ q : List Nat,
      (fileRotator.Write env2 o1.st q o1.fs).err = some IoError.errClosed ∧
      (fileRotator.Write env2 o1.st q o1.fs).n = 0 ∧
      (fileRotator.Write env2 o1.st q o1.fs).trace = [] ∧
      (fileRotator.Write env2 o1.st q o1.fs).st = o1.st ∧
      (fileRotator.Write env2 o1.st q o1.fs).fs = o1.fs := by
  exact claimC4_failed_rotation_no_self_heal "logs" ⟨2024, 5, 16⟩ false [7]
    ⟨true, [("logs/2024_05_16.log", [])]⟩ ⟨⟨2024, 5, 17⟩, false, true⟩
    ⟨"logs/2024_05_16.log", true⟩ rfl (by decide) rfl rfl

/-- Claim C5: during a successful rotation the old handle is synced and
closed before the new file is opened and before any bytes are written to
it; the compression dispatch appears exactly when `compress` is set,
right after the close, targeting the just-closed file's path; and the
write path never waits on the compression task — the call's result,
filesystem, handle and date are independent of the `compress` flag. -/
theorem claimC5_rotation_order_async :
    (∀ (env : Env) (r : fileRotator) (p : List Nat) (fs : FS) (h : FileHandle),
      r.file = some h → h.isOpen = true →
      fileRotator.needRotate r env.now = true →
      fs.dirExists = true → env.openFails = false →
      (fileRotator.Write env r p fs).trace =
        [Event.syncEv h.name, Event.closeEv h.name] ++
        (if r.compress then [Event.spawnCompress h.name] else []) ++
        [Event.openEv (logFileName r.path env.now),
         Event.writeEv (logFileName r.path env.now) p]) ∧
    (∀ (env : Env) (pa : String) (fi : Option FileHandle) (da : Date) (co b : Bool)
       (p : List Nat) (fs : FS),
      (fileRotator.Write env ⟨pa, fi, da, b⟩ p fs).n =
        (fileRotator.Write env ⟨pa, fi, da, co⟩ p fs).n ∧
      (fileRotator.Write env ⟨pa, fi, da, b⟩ p fs).err =
        (fileRotator.Write env ⟨pa, fi, da, co⟩ p fs).err ∧
      (fileRotator.Write env ⟨pa, fi, da, b⟩ p fs).fs =
        (fileRotator.Write env ⟨pa, fi, da, co⟩ p fs).fs ∧
      (fileRotator.Write env ⟨pa, fi, da, b⟩ p fs).st.file =
        (fileRotator.Write env ⟨pa, fi, da, co⟩ p fs).st.file ∧
      (fileRotator.Write env ⟨pa, fi, da, b⟩ p fs).st.date =
        (fileRotator.Write env ⟨pa, fi, da, co⟩ p fs).st.date) := by
  exact ⟨fun env r p fs h hf ho hnr hdir hof =>
      write_rotation_trace env r p fs h hf ho hnr hdir hof,
    fun env pa fi da co b p fs => write_compress_indep env pa fi da co b p fs⟩

/-- Witness for C5: the concrete rotation trace of a compressing sink
rolling from 2024-05-16 to 2024-05-17. -/
theorem claimC5_witness :
    (fileRotator.Write ⟨⟨2024, 5, 17⟩, false, false⟩
      ⟨"logs", some ⟨"logs/2024_05_16.log", true⟩, ⟨2024, 5, 16⟩, true⟩ [7]
      ⟨true, [("logs/2024_05_16.log", [])]⟩).trace =
      [Event.syncEv "logs/2024_05_16.log", Event.closeEv "logs/2024_05_16.log"] ++
      (if true then [Event.spawnCompress "logs/2024_05_16.log"] else []) ++
      [Event.openEv (logFileName "logs" ⟨2024, 5, 17⟩),
       Event.writeEv (logFileName "logs" ⟨2024, 5, 17⟩) [7]] := by
  exact claimC5_rotation_order_async.1 ⟨⟨2024, 5, 17⟩, false, false⟩
    ⟨"logs", some ⟨"logs/2024_05_16.log", true⟩, ⟨2024, 5, 16⟩, true⟩ [7]
    ⟨true, [("logs/2024_05_16.log", [])]⟩ ⟨"logs/2024_05_16.log", true⟩ rfl rfl
    (by decide) rfl rfl

/-- Claim C6 (code bug): on full success the source is deleted and the
archive is finalized, and a failure before the copy completes aborts
without deleting the source — but `os.Remove(src)` runs before the
deferred `zipWriter.Close()`, so when finalizing the archive fails the
source has already been deleted, contradicting the claim that no step
failing after archive creation destroys the source. -/
theorem claimC6_remove_precedes_finalize :
    let allOk : CompressEnv := ⟨false, false, false, false, false, false, false⟩
    let finalizeFail : CompressEnv := ⟨false, false, false, false, false, false, true⟩
    let copyFail : CompressEnv := ⟨false, false, false, false, false, true, false⟩
    srcDeleted allOk "logs/a.log" = true ∧
    (compressFile allOk "logs/a.log").contains (CEvent.finalizeArchive "logs/a.log.zip" true)
      = true ∧
    srcDeleted copyFail "logs/a.log" = false ∧
    srcDeleted finalizeFail "logs/a.log" = true ∧
    (compressFile finalizeFail "logs/a.log").contains
      (CEvent.finalizeArchive "logs/a.log.zip" false) = true ∧
    List.indexOf (CEvent.removeSrc "logs/a.log") (compressFile finalizeFail "logs/a.log") <
      List.indexOf (CEvent.finalizeArchive "logs/a.log.zip" false)
        (compressFile finalizeFail "logs/a.log") := by
  decide

/-- Counterexample to claim C7: a first `Write` on a fresh sink (stored
date is the zero value, year 1) whose directory creation fails returns
the error with zero bytes, but the stored date has been mutated to the
attempted date — the sink does not remain in its prior state. -/
theorem claimC7_counterexample :
    let o := fileRotator.Write ⟨⟨2024, 5, 17⟩, true, false⟩ ⟨"logs", none, ⟨1, 1, 1⟩, false⟩
      [7] ⟨false, []⟩
    o.err = some IoError.errMkdir ∧ o.n = 0 ∧
    o.st.date = ⟨2024, 5, 17⟩ ∧ o.st.date ≠ (⟨1, 1, 1⟩ : Date) := by
  decide

/-- Claim C7 as amended: when directory creation or file opening fails
during `Write`, the call returns an I/O error with a zero byte count and
no file content changes; the handle is unchanged in the first-open path
and is the closed old handle in the rotation path, but the stored date
is always updated to the attempted current date before the failure. -/
theorem claimC7_failed_open_error_and_date
    : (∀ (env : Env) (r : fileRotator) (p : List Nat) (fs : FS),
      r.file = none →
      ((fs.dirExists = false ∧ env.mkdirFails = true) ∨ env.openFails = true) →
      let o := fileRotator.Write env r p fs
      (o.err = some IoError.errMkdir ∨ o.err = some IoError.errOpen) ∧ o.n = 0 ∧
      o.st.file = none ∧ o.st.path = r.path ∧ o.st.compress = r.compress ∧
      o.st.date = env.now ∧ o.fs.files = fs.files) ∧
    (∀ (env : Env) (r : fileRotator) (p : List Nat) (fs : FS) (h : FileHandle),
      r.file = some h → h.isOpen = true →
      fileRotator.needRotate r env.now = true →
      fs.dirExists = true → env.openFails = true →
      let o := fileRotator.Write env r p fs
      o.err = some IoError.errOpen ∧ o.n = 0 ∧
      o.st.file = some ⟨h.name, false⟩ ∧ o.st.path = r.path ∧
      o.st.date = env.now ∧ o.fs.files = fs.files) := by
  constructor
  · intro env r p fs hnil hfail o
    simp only [o]
    rw [write_fileNone env r p fs hnil]
    rcases hfail with ⟨hde, hmkf⟩ | hop
    · have hmkd : mkDirStep env fs = none := by simp [mkDirStep, hde, hmkf]
      rw [openNew_mkdirFail env r env.now fs hmkd]
      simp [hnil]
    · cases hmk : mkDirStep env fs with
      | none =>
        rw [openNew_mkdirFail env r env.now fs hmk]
        simp [hnil]
      | some fs1 =>
        rw [openNew_openFail env r env.now fs fs1 hmk hop]
        simp [hnil, mkDirStep_files env fs fs1 hmk]
  · intro env r p fs h hf ho hnr hdir hop o
    have hmk : mkDirStep env fs = some fs := by simp [mkDirStep, hdir]
    simp only [o]
    rw [write_fileSome env r p fs h hf, if_pos hnr, rotate_open env r fs h hf ho]
    rw [openNew_openFail env { r with file := some { h with isOpen := false } }
          env.now fs fs hmk hop]
    simp

/-- Witness for C7 as amended: both failure paths at concrete inputs. -/
theorem claimC7_witness :
    (let o := fileRotator.Write ⟨⟨2024, 5, 17⟩, true, false⟩ ⟨"logs", none, ⟨1, 1, 1⟩, true⟩
      [7] ⟨false, []⟩
    (o.err = some IoError.errMkdir ∨ o.err = some IoError.errOpen) ∧ o.n = 0 ∧
    o.st.file = none ∧ o.st.path = "logs" ∧ o.st.compress = true ∧
    o.st.date = ⟨2024, 5, 17⟩ ∧ o.fs.files = []) ∧
    (let o := fileRotator.Write ⟨⟨2024, 5, 17⟩, false, true⟩
      ⟨"logs", some ⟨"logs/2024_05_16.log", true⟩, ⟨2024, 5, 16⟩, false⟩ [7]
      ⟨true, [("logs/2024_05_16.log", [])]⟩
    o.err = some IoError.errOpen ∧ o.n = 0 ∧
    o.st.file = some ⟨"logs/2024_05_16.log", false⟩ ∧ o.st.path = "logs" ∧
    o.st.date = ⟨2024, 5, 17⟩ ∧ o.fs.files = [("logs/2024_05_16.log", [])]) := by
  constructor
  · exact claimC7_failed_open_error_and_date.1 ⟨⟨2024, 5, 17⟩, true, false⟩
      ⟨"logs", none, ⟨1, 1, 1⟩, true⟩ [7] ⟨false, []⟩ rfl (Or.inl ⟨rfl, rfl⟩)
  · exact claimC7_failed_open_error_and_date.2 ⟨⟨2024, 5, 17⟩, false, true⟩
      ⟨"logs", some ⟨"logs/2024_05_16.log", true⟩, ⟨2024, 5, 16⟩, false⟩ [7]
      ⟨true, [("logs/2024_05_16.log", [])]⟩ ⟨"logs/2024_05_16.log", true⟩ rfl rfl
      (by decide) rfl rfl

/-- Claim C8: in every reachable sink state, an open stored handle is
named `<directory>/<YYYY_MM_DD>.log` for the stored date; and a
successful compression run creates its archive at the source path plus
`.zip` with a single entry named by the source's base name. -/
theorem claimC8_filename_invariant_archive_naming :
    (∀ (r : fileRotator) (fs : FS), Reachable r fs →
      ∀ h : FileHandle, r.file = some h → h.isOpen = true →
        h.name = logFileName r.path r.date) ∧
    (∀ src : String,
      CEvent.createArchive (src ++ ".zip") ∈
        compressFile ⟨false, false, false, false, false, false, false⟩ src ∧
      (compressFile ⟨false, false, false, false, false, false, false⟩ src).filter
        CEvent.isCreateEntry = [CEvent.createEntry (baseName src)]) := by
  exact ⟨fun r fs hr => reachable_handleInv r fs hr,
    fun src => compress_success_naming src⟩

/-- Witness for C8: the state reached by one write on 2024-05-17 has an
open handle named by the invariant, and the archive facts hold for a
concrete source path. -/
theorem claimC8_witness :
    (fileRotator.Write ⟨⟨2024, 5, 17⟩, false, false⟩ ⟨"logs", none, ⟨1, 1, 1⟩, false⟩ [1]
      ⟨true, []⟩).st.file = some ⟨"logs/2024_05_17.log", true⟩ ∧
    "logs/2024_05_17.log" =
      logFileName
        (fileRotator.Write ⟨⟨2024, 5, 17⟩, false, false⟩ ⟨"logs", none, ⟨1, 1, 1⟩, false⟩ [1]
          ⟨true, []⟩).st.path
        (fileRotator.Write ⟨⟨2024, 5, 17⟩, false, false⟩ ⟨"logs", none, ⟨1, 1, 1⟩, false⟩ [1]
          ⟨true, []⟩).st.date ∧
    CEvent.createArchive "logs/a.log.zip" ∈
      compressFile ⟨false, false, false, false, false, false, false⟩ "logs/a.log" := by
  refine ⟨by decide, ?_, ?_⟩
  · exact claimC8_filename_invariant_archive_naming.1 _ _
      (Reachable.write ⟨⟨2024, 5, 17⟩, false, false⟩ [1]
        (Reachable.init "logs" false ⟨true, []⟩))
      ⟨"logs/2024_05_17.log", true⟩ (by decide) rfl
  · exact (claimC8_filename_invariant_archive_naming.2 "logs/a.log").1

/-- Claim C10: `WithFields` returns a child logger whose path, level,
structured flag and rotator reference equal the receiver's (the rotating
sink is shared, not duplicated), and the receiver itself is unchanged by
the call. -/
theorem claimC10_withFields_frame (l : Logger) (fields : List (String × String)) :
    (Logger.WithFields l fields).1 = l ∧
    (Logger.WithFields l fields).2.path = l.path ∧
    (Logger.WithFields l fields).2.level = l.level ∧
    (Logger.WithFields l fields).2.structured = l.structured ∧
    (Logger.WithFields l fields).2.rotator = l.rotator := by
  simp [Logger.WithFields]
